import Mathlib

/-!
Verification of the steam-locomotive simulator (Predix delivery subsystem).

The JavaScript source is shallowly embedded: JS numbers are modelled as
exact rationals (ℚ), JS objects used as key → value maps are modelled as
association lists, the event-driven delivery services are modelled as
explicit state-passing functions whose scheduled callbacks are separate
functions, and `setTimeout` is modelled by returning the scheduled delay
(in milliseconds) alongside the new state.
-/

namespace Locomotive

/-! ### Constants (config/simulator_constants.js) -/

def EPS : ℚ := 1 / 1000000000

def NUM_ITERATIONS : ℕ := 100000

def MAX_NUM_SENDS_PER_KEY : ℕ := 100

def SEND_INTERVAL : ℚ := 100

def DT : ℚ := 1 / 10

def X1 : ℚ := 42520575 / 100

def X2 : ℚ := 325000

def X3 : ℚ := 17 / 10

def FUEL_ADD_AMT : ℚ := 1

def MAX_FUEL_MASS_IN_FIRE_CHAMBER : ℚ := 10

def PRESSURE_MULTIPLIER : ℚ := 2

def FUEL_BURN_AMT : ℚ := 1 / 10

def INITIAL_FUEL_MASS_IN_TENDER : ℚ := 12700

def LOCOMOTIVE_OWN_MASS : ℚ := 500000

def MAX_ALLOWED_PRESSURE : ℚ := 21800000000007 / 1000000000000

def MAX_ALLOWED_SPEED : ℚ := 2741731 / 100000

def MIN_ALLOWED_FUEL_MASS_IN_TENDER : ℚ := 2800

def WAIT_SECONDS_BETWEEN_FAILED_REQUESTS : ℕ := 5

def MAX_NODES_TO_QUEUE_PER_SEND : ℕ := 10

/-! ### Simulation state (src/index.js, `model.state`) -/

structure SimState where
  distance : ℚ
  fuelMassBurning : ℚ
  fuelMassInTender : ℚ
  fuelMassInFireChamber : ℚ
  locomotiveOwnMass : ℚ
  pressure : ℚ
  speed : ℚ
  time : ℚ
deriving DecidableEq, Repr

/-- Initial state of the model (`model.state` literal). -/
def initialState : SimState :=
  { distance := 0
    fuelMassBurning := 0
    fuelMassInTender := INITIAL_FUEL_MASS_IN_TENDER
    fuelMassInFireChamber := 0
    locomotiveOwnMass := LOCOMOTIVE_OWN_MASS
    pressure := 0
    speed := 0
    time := 0 }

/-- The `Fireman` process transfer function: moves fuel from the tender
into the fire chamber unless the gate blocks. -/
def firemanTransferFunction (state : SimState) : SimState :=
  if state.fuelMassInTender < 0 ∨ state.fuelMassInFireChamber > MAX_FUEL_MASS_IN_FIRE_CHAMBER then
    state
  else
    { state with
      fuelMassInTender := state.fuelMassInTender - FUEL_ADD_AMT
      fuelMassInFireChamber := state.fuelMassInFireChamber + FUEL_ADD_AMT }

/-- The `Fire Chamber` process transfer function: burning mass approaches
the fire-chamber mass, pressure is set from the (pre-decrement) burning
mass, then burning and fire-chamber masses burn off with a floor at 0. -/
def fireChamberTransferFunction (state : SimState) : SimState :=
  let burning1 :=
    if state.fuelMassBurning < state.fuelMassInFireChamber then
      min state.fuelMassInFireChamber (FUEL_ADD_AMT + state.fuelMassBurning)
    else
      state.fuelMassBurning
  { state with
    pressure := PRESSURE_MULTIPLIER * burning1
    fuelMassBurning := max 0 (burning1 - FUEL_BURN_AMT)
    fuelMassInFireChamber := max 0 (state.fuelMassInFireChamber - FUEL_BURN_AMT) }

/-- The `Movement` process transfer function: explicit Euler update of
speed, distance and time, with a dead zone on acceleration at speed 0. -/
def movementTransferFunction (state : SimState) : SimState :=
  let mass := state.locomotiveOwnMass + state.fuelMassInTender + state.fuelMassInFireChamber
  let a0 := ((X1 * state.pressure) - (X2 * state.speed)) / mass
  let a := if state.speed = 0 ∧ |a0| < X3 then 0 else a0
  { state with
    speed := state.speed + (DT * a)
    distance := state.distance + (DT * state.speed)
    time := state.time + DT }

/-- One simulator iteration of `model.processes` in array order. -/
def advance (state : SimState) : SimState :=
  movementTransferFunction (fireChamberTransferFunction (firemanTransferFunction state))

/-- The state after `n` simulator iterations from the initial state. -/
def simStateAt : ℕ → SimState
  | 0 => initialState
  | n + 1 => advance (simStateAt n)

/-! ### Sampling policy (src/index.js, `model.sendDataToPredix` and `model.history`)

`model.history` is a JS object mapping a key to `{prevTimeSent, numSends}`;
it is modelled as an association list. -/

structure HistEntry where
  prevTimeSent : ℚ
  numSends : ℕ
deriving DecidableEq, Repr

def History : Type := List (String × HistEntry)

instance : DecidableEq History := inferInstanceAs (DecidableEq (List (String × HistEntry)))

instance : Repr History := inferInstanceAs (Repr (List (String × HistEntry)))

/-- Lookup of `model.history[key]` (`undefined` becomes `none`). -/
def histFind (h : History) (k : String) : Option HistEntry :=
  (List.find? (fun p => p.1 = k) h).map Prod.snd

/-- Assignment `model.history[key] = e`: replaces the entry in place, or
appends a new one. -/
def histSet : History → String → HistEntry → History
  | [], k, e => [(k, e)]
  | (k', e') :: t, k, e =>
      if k' = k then (k, e) :: t else (k', e') :: histSet t k e

/-- The `numSends` local of `model.sendDataToPredix` (0 when the key has
no history entry). -/
def numSendsOf (h : History) (k : String) : ℕ :=
  match histFind h k with
  | none => 0
  | some e => e.numSends

/-- The `timeDiff` local of `model.sendDataToPredix` (the sentinel -1 when
the key has no history entry). -/
def timeDiffOf (h : History) (k : String) (time : ℚ) : ℚ :=
  match histFind h k with
  | none => -1
  | some e => time - e.prevTimeSent

/-- The sampling gate of `model.sendDataToPredix`: the condition under
which the produced value is forwarded to the sink. -/
def shouldSend (h : History) (k : String) (time : ℚ) : Bool :=
  decide (numSendsOf h k < MAX_NUM_SENDS_PER_KEY) &&
    (decide (timeDiffOf h k time = -1) || decide (timeDiffOf h k time + EPS ≥ SEND_INTERVAL))

/-- One call of `model.sendDataToPredix` for key `k` at `state.time = time`:
returns whether the sink's send function was called, and the updated
history. -/
def sendDataToPredix (h : History) (k : String) (time : ℚ) : Bool × History :=
  if shouldSend h k time then
    (true, histSet h k ⟨time, numSendsOf h k + 1⟩)
  else
    (false, h)

/-- The history after processing a list of `(key, time)` sampling events. -/
def runHistory (h : History) : List (String × ℚ) → History
  | [] => h
  | (k, t) :: evs => runHistory (sendDataToPredix h k t).2 evs

/-- The number of events of the list that are forwarded for key `k` when
processing the events in order starting from history `h`. -/
def countSends (h : History) (evs : List (String × ℚ)) (k : String) : ℕ :=
  match evs with
  | [] => 0
  | (k', t) :: rest =>
      let r := sendDataToPredix h k' t
      (if r.1 ∧ k' = k then 1 else 0) + countSends r.2 rest k

/-- The eligibility condition exactly as the spec states it (used to compare
the spec's words with the code's gate): sends-so-far below the maximum, and
either no history entry or `(currentTime - lastSent) + EPS ≥ SEND_INTERVAL`. -/
def specEligible (h : History) (k : String) (time : ℚ) : Prop :=
  numSendsOf h k < MAX_NUM_SENDS_PER_KEY ∧
    (histFind h k = none ∨
      ∃ e, histFind h k = some e ∧ time - e.prevTimeSent + EPS ≥ SEND_INTERVAL)

instance (h : History) (k : String) (time : ℚ) : Decidable (specEligible h k time) := by
  unfold specEligible
  have : Decidable (∃ e, histFind h k = some e ∧ time - e.prevTimeSent + EPS ≥ SEND_INTERVAL) := by
    rcases hf : histFind h k with _ | e
    · exact .isFalse (by simp [hf])
    · exact decidable_of_iff (time - e.prevTimeSent + EPS ≥ SEND_INTERVAL) (by simp [hf])
  exact instDecidableAnd

/-! ### Queue helpers (src/common/helper.js)

A queue node is `{key: Helper.getId(), data}`; the payload type is a
parameter. -/

structure QItem (α : Type) where
  key : String
  data : α
deriving DecidableEq, Repr

/-- `Helper.setItemsInProgress`: pushes nodes of `queue` onto
`itemsInProgress` (the lodash `forEach` accumulator), stopping early once
the accumulator reaches `MAX_NODES_TO_QUEUE_PER_SEND` elements. The queue
itself is not modified. -/
def setItemsInProgress {α : Type} : List α → List α → List α
  | [], acc => acc
  | n :: rest, acc =>
      let acc' := acc ++ [n]
      if acc'.length = MAX_NODES_TO_QUEUE_PER_SEND then acc'
      else setItemsInProgress rest acc'

/-- `Helper.removeProcessedItemsFromQueue`: for each in-progress item,
`_.remove(queue, {key: item.key})` removes every queue node whose key
matches that item's key. -/
def removeProcessedItemsFromQueue {α : Type} (queue itemsInProgress : List (QItem α)) :
    List (QItem α) :=
  itemsInProgress.foldl (fun q item => q.filter (fun n => !(n.key == item.key))) queue

/-- `Helper.getPredixToken`: surfaces a token-acquisition failure as the
ordinary value `"no_token"` instead of throwing. The outcome of the
underlying `uaa_util.getToken` round-trip is the `Except` argument. -/
def getPredixToken (outcome : Except String String) : String :=
  match outcome with
  | .ok accessToken => accessToken
  | .error _ => "no_token"

/-! ### Asset service (src/services/asset_service.js)

The module-level mutable variables become a state record; the network
request issued by a drain is represented by the returned attempt
`(itemsInProgress, bearer token)`; `setTimeout` is represented by
returning the scheduled delay in milliseconds. -/

structure AssetState (α : Type) where
  queue : List (QItem α)
  isOperationInProgress : Bool
  itemsInProgress : List (QItem α)
  token : String
deriving DecidableEq, Repr

/-- `processAssetData`: the drain operation. Returns the new service state
and, when a transmission is initiated, the outbound attempt (the batch and
the bearer token attached to it). The queue itself is never modified. -/
def processAssetData {α : Type} (st : AssetState α) :
    AssetState α × Option (List (QItem α) × String) :=
  if st.isOperationInProgress then (st, none)
  else
    let items := setItemsInProgress st.queue []
    if items.length = 0 then
      ({ st with isOperationInProgress := false, itemsInProgress := items }, none)
    else
      ({ st with isOperationInProgress := true, itemsInProgress := items },
        some (items, st.token))

/-- The failure branch of `handlePostResponse` (err or `!res.ok`): clears
the in-progress flag and schedules the retry callback; returns the new
state and the scheduled delay in milliseconds. No queue item is touched. -/
def handlePostResponseFailure {α : Type} (st : AssetState α) : AssetState α × ℕ :=
  ({ st with isOperationInProgress := false },
    WAIT_SECONDS_BETWEEN_FAILED_REQUESTS * 1000)

/-- The state of the asset service inside the scheduled retry callback,
just before `processAssetData` is re-invoked: the flag is cleared and the
token is replaced by the freshly acquired one. -/
def assetRetryCallbackPre {α : Type} (st : AssetState α) (freshToken : String) : AssetState α :=
  { st with isOperationInProgress := false, token := freshToken }

/-- The full scheduled retry callback of the asset service: clear the flag,
install the fresh token, re-invoke the drain. -/
def assetRetryCallback {α : Type} (st : AssetState α) (freshToken : String) :
    AssetState α × Option (List (QItem α) × String) :=
  processAssetData (assetRetryCallbackPre st freshToken)

/-- `AssetService.sendDataToPredix`: push `{key: id, data}` onto the queue,
then drain. -/
def assetSendDataToPredix {α : Type} (st : AssetState α) (id : String) (data : α) :
    AssetState α × Option (List (QItem α) × String) :=
  processAssetData { st with queue := st.queue ++ [⟨id, data⟩] }

/-! ### Time series service (src/services/time_series_service.js) -/

structure TSState (α : Type) where
  queue : List (QItem α)
  isOperationInProgress : Bool
  itemsInProgress : List (QItem α)
  token : String
  /-- whether the web socket object exists (`ws` is not `undefined`) -/
  wsExists : Bool
deriving DecidableEq, Repr

/-- `processTimeSeriesData`: the drain operation of the streaming service.
A websocket is created lazily when none exists; the outbound attempt
carries the batch and the bearer token under which the socket sends. The
queue itself is never modified. -/
def processTimeSeriesData {α : Type} (st : TSState α) :
    TSState α × Option (List (QItem α) × String) :=
  if st.isOperationInProgress then (st, none)
  else
    let items := setItemsInProgress st.queue []
    if items.length = 0 then
      ({ st with isOperationInProgress := false, itemsInProgress := items }, none)
    else
      ({ st with isOperationInProgress := true, itemsInProgress := items, wsExists := true },
        some (items, st.token))

/-- The `ws.onerror` handler: discards the socket and schedules the retry
callback; returns the new state and the scheduled delay in milliseconds.
No queue item is touched. -/
def wsOnError {α : Type} (st : TSState α) : TSState α × ℕ :=
  ({ st with wsExists := false }, WAIT_SECONDS_BETWEEN_FAILED_REQUESTS * 1000)

/-- The state of the time series service inside the scheduled retry
callback, just before `processTimeSeriesData` is re-invoked: the flag is
cleared and the token is replaced by the freshly acquired one. -/
def tsRetryCallbackPre {α : Type} (st : TSState α) (freshToken : String) : TSState α :=
  { st with isOperationInProgress := false, token := freshToken }

/-- The full scheduled retry callback of the time series service. -/
def tsRetryCallback {α : Type} (st : TSState α) (freshToken : String) :
    TSState α × Option (List (QItem α) × String) :=
  processTimeSeriesData (tsRetryCallbackPre st freshToken)

/-- `TimeSeriesService.sendDataToPredix`: push `{key: id, data}` onto the
queue, then drain. -/
def tsSendDataToPredix {α : Type} (st : TSState α) (id : String) (data : α) :
    TSState α × Option (List (QItem α) × String) :=
  processTimeSeriesData { st with queue := st.queue ++ [⟨id, data⟩] }

/-! ### First simulator iteration (src/index.js, `runSimulation`)

On iteration 0, `runSimulation` awaits `Helper.getPredixToken` and
constructs both services with whatever string came back (there is no check
for the failure sentinel). It then advances the state once and runs the
four `onStateChange` handlers in order. -/

/-- Payload of an asset alert (`{key, val, time, msg}`). -/
structure AlertData where
  key : String
  val : ℚ
  time : ℚ
  msg : String
deriving DecidableEq, Repr

structure FirstIterationResult where
  history : History
  ts : TSState SimState
  asset : AssetState AlertData
  /-- outbound time-series attempts (batch, bearer token) -/
  tsAttempts : List (List (QItem SimState) × String)
  /-- outbound asset attempts (batch, bearer token) -/
  assetAttempts : List (List (QItem AlertData) × String)
deriving DecidableEq, Repr

/-- The first simulator iteration, as a function of the string returned by
the initial `Helper.getPredixToken` call (which is used verbatim as the
bearer token of both services). -/
def firstIteration (tok : String) : FirstIterationResult :=
  let ts0 : TSState SimState := ⟨[], false, [], tok, false⟩
  let a0 : AssetState AlertData := ⟨[], false, [], tok⟩
  let s1 := advance initialState
  -- onStateChange[0]: always model.toTimeSeries(state)
  let r1 := sendDataToPredix [] "timeSeries" s1.time
  let (ts1, att1) := if r1.1 then tsSendDataToPredix ts0 "id-0" s1 else (ts0, none)
  -- onStateChange[1]: pressure alert
  let r2 := if s1.pressure > MAX_ALLOWED_PRESSURE then sendDataToPredix r1.2 "pressure" s1.time
            else (false, r1.2)
  let (a1, att2) :=
    if r2.1 then
      assetSendDataToPredix a0 "id-1" ⟨"pressure", s1.pressure, s1.time, "Maximum pressure has been exceeded!"⟩
    else (a0, none)
  -- onStateChange[2]: speed alert
  let r3 := if s1.speed > MAX_ALLOWED_SPEED then sendDataToPredix r2.2 "speed" s1.time
            else (false, r2.2)
  let (a2, att3) :=
    if r3.1 then
      assetSendDataToPredix a1 "id-2" ⟨"speed", s1.speed, s1.time, "Maximum speed has been exceeded!"⟩
    else (a1, none)
  -- onStateChange[3]: low-fuel alert
  let r4 := if s1.fuelMassInTender < MIN_ALLOWED_FUEL_MASS_IN_TENDER then
              sendDataToPredix r3.2 "fuelMassInTender" s1.time
            else (false, r3.2)
  let (a3, att4) :=
    if r4.1 then
      assetSendDataToPredix a2 "id-3" ⟨"fuelMassInTender", s1.fuelMassInTender, s1.time, "Fuel mass in tender is too low!"⟩
    else (a2, none)
  ⟨r4.2, ts1, a3, att1.toList, att2.toList ++ att3.toList ++ att4.toList⟩

/-- The burning mass after the approach step of the Fire Chamber stage,
before the burn-off decrement (the value of `res.fuelMassBurning` right
after the `if` in the transfer function). -/
def preDecrementBurning (s : SimState) : ℚ :=
  if s.fuelMassBurning < s.fuelMassInFireChamber then
    min s.fuelMassInFireChamber (FUEL_ADD_AMT + s.fuelMassBurning)
  else
    s.fuelMassBurning

/-- The combustion invariant: burning mass is nonnegative and bounded by
the fire-chamber mass, and the pressure is nonnegative. -/
def FuelInv (s : SimState) : Prop :=
  0 ≤ s.fuelMassBurning ∧ s.fuelMassBurning ≤ s.fuelMassInFireChamber ∧ 0 ≤ s.pressure

/-! ### Theorems -/

/-- **C5.** The Fuel Transfer stage (Fireman) returns the state unchanged
if `fuelMassInTender` is negative or `fuelMassInFireChamber` exceeds
`MAX_FUEL_MASS_IN_FIRE_CHAMBER`; otherwise it returns the state with
exactly `FUEL_ADD_AMT` moved from tender to fire chamber and all other
fields unchanged. Being a total function, it signals no error in either
case. -/
theorem fireman_saturation (s : SimState) :
    (s.fuelMassInTender < 0 ∨ s.fuelMassInFireChamber > MAX_FUEL_MASS_IN_FIRE_CHAMBER →
      firemanTransferFunction s = s) ∧
    (¬(s.fuelMassInTender < 0 ∨ s.fuelMassInFireChamber > MAX_FUEL_MASS_IN_FIRE_CHAMBER) →
      firemanTransferFunction s =
        { s with
          fuelMassInTender := s.fuelMassInTender - FUEL_ADD_AMT
          fuelMassInFireChamber := s.fuelMassInFireChamber + FUEL_ADD_AMT }) := by
  constructor <;> intro h <;> simp [firemanTransferFunction, h]

/-- Witness for C5: both branches of `fireman_saturation` at concrete
states. -/
theorem fireman_saturation_witness :
    firemanTransferFunction ⟨0, 0, -1, 0, 0, 0, 0, 0⟩ = ⟨0, 0, -1, 0, 0, 0, 0, 0⟩ ∧
    firemanTransferFunction initialState =
      { initialState with
        fuelMassInTender := initialState.fuelMassInTender - FUEL_ADD_AMT
        fuelMassInFireChamber := initialState.fuelMassInFireChamber + FUEL_ADD_AMT } :=
  ⟨(fireman_saturation _).1 (Or.inl (by norm_num)),
    (fireman_saturation initialState).2 (by decide)⟩

/-- **C6.** The Combustion/Pressure stage computes, in order: the
approach step (burning mass becomes `min(fireChamberMass, FUEL_ADD_AMT +
burningMass)` when below the fire-chamber mass), then the pressure from
this pre-decrement burning mass, then the two burn-off decrements floored
at zero. In particular, when the pre-decrement burning mass is at least
`FUEL_BURN_AMT`, the output pressure is `PRESSURE_MULTIPLIER` times the
output (post-decrement) burning mass *plus* `FUEL_BURN_AMT`, i.e. it was
computed from the pre-decrement mass. -/
theorem fireChamber_order (s : SimState) :
    preDecrementBurning s =
      (if s.fuelMassBurning < s.fuelMassInFireChamber then
        min s.fuelMassInFireChamber (FUEL_ADD_AMT + s.fuelMassBurning)
      else s.fuelMassBurning) ∧
    (fireChamberTransferFunction s).pressure = PRESSURE_MULTIPLIER * preDecrementBurning s ∧
    (fireChamberTransferFunction s).fuelMassBurning =
      max 0 (preDecrementBurning s - FUEL_BURN_AMT) ∧
    (fireChamberTransferFunction s).fuelMassInFireChamber =
      max 0 (s.fuelMassInFireChamber - FUEL_BURN_AMT) ∧
    (FUEL_BURN_AMT ≤ preDecrementBurning s →
      (fireChamberTransferFunction s).pressure =
        PRESSURE_MULTIPLIER * ((fireChamberTransferFunction s).fuelMassBurning + FUEL_BURN_AMT)) := by
  refine ⟨rfl, rfl, rfl, rfl, fun hge => ?_⟩
  have hmax : max 0 (preDecrementBurning s - FUEL_BURN_AMT) = preDecrementBurning s - FUEL_BURN_AMT :=
    max_eq_right (by linarith)
  show PRESSURE_MULTIPLIER * preDecrementBurning s =
    PRESSURE_MULTIPLIER * (max 0 (preDecrementBurning s - FUEL_BURN_AMT) + FUEL_BURN_AMT)
  rw [hmax]; ring

/-- Witness for C6: `fireChamber_order` at a state with burning mass 5 and
fire-chamber mass 5 (pre-decrement mass 5 ≥ `FUEL_BURN_AMT`). -/
theorem fireChamber_order_witness :
    (fireChamberTransferFunction ⟨0, 5, 0, 5, 0, 0, 0, 0⟩).pressure =
      PRESSURE_MULTIPLIER *
        ((fireChamberTransferFunction ⟨0, 5, 0, 5, 0, 0, 0, 0⟩).fuelMassBurning + FUEL_BURN_AMT) :=
  (fireChamber_order ⟨0, 5, 0, 5, 0, 0, 0, 0⟩).2.2.2.2
    (by norm_num [preDecrementBurning, FUEL_BURN_AMT])

/-- Auxiliary characterization of `Helper.setItemsInProgress` for an
accumulator still below the batch cap. -/
theorem setItemsInProgress_go {α : Type} (q : List α) :
    ∀ acc : List α, acc.length < MAX_NODES_TO_QUEUE_PER_SEND →
      setItemsInProgress q acc = acc ++ q.take (MAX_NODES_TO_QUEUE_PER_SEND - acc.length) := by
  induction q with
  | nil => intro acc _; simp [setItemsInProgress]
  | cons n rest ih =>
      intro acc hlt
      rw [setItemsInProgress]
      by_cases hfull : (acc ++ [n]).length = MAX_NODES_TO_QUEUE_PER_SEND
      · rw [if_pos hfull]
        have h1 : MAX_NODES_TO_QUEUE_PER_SEND - acc.length = 1 := by
          simp at hfull; omega
        rw [h1]
        simp
      · rw [if_neg hfull]
        have hlt' : (acc ++ [n]).length < MAX_NODES_TO_QUEUE_PER_SEND := by
          simp at hfull ⊢; omega
        rw [ih _ hlt']
        have h2 : MAX_NODES_TO_QUEUE_PER_SEND - acc.length =
            (MAX_NODES_TO_QUEUE_PER_SEND - (acc ++ [n]).length) + 1 := by
          simp; omega
        rw [h2, List.take_succ_cons]
        simp

/-- **C7.** When a drain begins with no transmission in progress,
`Helper.setItemsInProgress` (called with a fresh empty `itemsInProgress`
array) yields exactly the first `min(queue length,
MAX_NODES_TO_QUEUE_PER_SEND)` items of the queue in queue order, never
more than `MAX_NODES_TO_QUEUE_PER_SEND`, and the queue itself keeps all
its items; accordingly both drain operations install this batch as their
in-progress set and leave the queue unchanged. -/
theorem setItemsInProgress_batch {α : Type} (queue : List α) :
    setItemsInProgress queue [] = queue.take MAX_NODES_TO_QUEUE_PER_SEND ∧
    (setItemsInProgress queue []).length = min queue.length MAX_NODES_TO_QUEUE_PER_SEND ∧
    (setItemsInProgress queue []).length ≤ MAX_NODES_TO_QUEUE_PER_SEND ∧
    (∀ (β : Type) (st : AssetState β), st.isOperationInProgress = false →
      (processAssetData st).1.itemsInProgress = st.queue.take MAX_NODES_TO_QUEUE_PER_SEND ∧
      (processAssetData st).1.queue = st.queue) ∧
    (∀ (β : Type) (st : TSState β), st.isOperationInProgress = false →
      (processTimeSeriesData st).1.itemsInProgress = st.queue.take MAX_NODES_TO_QUEUE_PER_SEND ∧
      (processTimeSeriesData st).1.queue = st.queue) := by
  have htake : ∀ (γ : Type) (q : List γ),
      setItemsInProgress q [] = q.take MAX_NODES_TO_QUEUE_PER_SEND := by
    intro γ q
    have := setItemsInProgress_go q ([] : List γ) (by norm_num [MAX_NODES_TO_QUEUE_PER_SEND])
    simpa using this
  refine ⟨htake α queue, ?_, ?_, ?_, ?_⟩
  · rw [htake]; simp [Nat.min_comm]
  · rw [htake]; simp
  · intro β st hop
    constructor <;>
      · simp only [processAssetData, hop, Bool.false_eq_true, if_false, htake]
        split <;> simp
  · intro β st hop
    constructor <;>
      · simp only [processTimeSeriesData, hop, Bool.false_eq_true, if_false, htake]
        split <;> simp

/-- Witness for C7: `setItemsInProgress_batch` on a 12-element queue and
an idle asset-service state. -/
theorem setItemsInProgress_batch_witness :
    setItemsInProgress (List.range 12) [] = (List.range 12).take MAX_NODES_TO_QUEUE_PER_SEND ∧
    (processAssetData (⟨[⟨"a", (0 : ℕ)⟩], false, [], "t"⟩ : AssetState ℕ)).1.itemsInProgress =
      [⟨"a", (0 : ℕ)⟩] :=
  ⟨(setItemsInProgress_batch (List.range 12)).1,
    by
      have := ((setItemsInProgress_batch ([] : List ℕ)).2.2.2.1 ℕ
        (⟨[⟨"a", (0 : ℕ)⟩], false, [], "t"⟩ : AssetState ℕ) rfl).1
      rw [this]
      simp [MAX_NODES_TO_QUEUE_PER_SEND]⟩

/-- **C1 (counterexample).** The claim's gate condition "numSends below the
maximum AND (no history entry OR (currentTime − lastSent) + EPS ≥
SEND_INTERVAL)" is *not* equivalent to the code's gate: because the code
encodes "no history entry" with the sentinel `timeDiff = -1`, a history
entry whose `prevTimeSent` exceeds the current time by exactly 1 also
passes the gate. Concretely, with history `{timeSeries ↦ {prevTimeSent =
1, numSends = 1}}` and current time 0, the code forwards although the
claimed condition is false. -/
theorem sendDataToPredix_gate_counterexample :
    (sendDataToPredix [("timeSeries", ⟨1, 1⟩)] "timeSeries" 0).1 = true ∧
    ¬ specEligible [("timeSeries", ⟨1, 1⟩)] "timeSeries" 0 := by
  constructor
  · norm_num [sendDataToPredix, shouldSend, timeDiffOf, numSendsOf, histFind,
      MAX_NUM_SENDS_PER_KEY, EPS, SEND_INTERVAL]
  · intro h
    rcases h with ⟨-, h | ⟨e, he, hge⟩⟩
    · simp [histFind, List.find?] at h
    · have he' : e = (⟨1, 1⟩ : HistEntry) := by
        simpa [histFind, List.find?] using he.symm
      rw [he'] at hge
      norm_num [EPS, SEND_INTERVAL] at hge

/-- **C1 (amended).** The sampling gate of `model.sendDataToPredix`
forwards the produced value if and only if the key's sends-so-far count is
strictly below `MAX_NUM_SENDS_PER_KEY` and either the key has no history
entry, or `currentTime - lastSent` equals the sentinel value -1 exactly,
or `(currentTime - lastSent) + EPS ≥ SEND_INTERVAL`; when it forwards, the
key's entry becomes `{prevTimeSent = currentTime, numSends = old + 1}`
(with old count 0 on a first send) and no other entry changes; when it
does not forward, the history is unchanged. -/
theorem sendDataToPredix_gate_amended (h : History) (k : String) (t : ℚ) :
    ((sendDataToPredix h k t).1 = true ↔
      numSendsOf h k < MAX_NUM_SENDS_PER_KEY ∧
        (histFind h k = none ∨
          ∃ e, histFind h k = some e ∧
            (t - e.prevTimeSent = -1 ∨ t - e.prevTimeSent + EPS ≥ SEND_INTERVAL))) ∧
    ((sendDataToPredix h k t).1 = true →
      (sendDataToPredix h k t).2 = histSet h k ⟨t, numSendsOf h k + 1⟩) ∧
    ((sendDataToPredix h k t).1 = false → (sendDataToPredix h k t).2 = h) := by
  have hfst : (sendDataToPredix h k t).1 = shouldSend h k t := by
    rcases hss : shouldSend h k t with _ | _ <;> simp [sendDataToPredix, hss]
  have hiff : shouldSend h k t = true ↔
      numSendsOf h k < MAX_NUM_SENDS_PER_KEY ∧
        (timeDiffOf h k t = -1 ∨ timeDiffOf h k t + EPS ≥ SEND_INTERVAL) := by
    simp [shouldSend]
  refine ⟨?_, ?_, ?_⟩
  · rw [hfst, hiff]
    rcases hf : histFind h k with _ | e
    · have ht : timeDiffOf h k t = -1 := by simp [timeDiffOf, hf]
      simp [ht, hf]
    · have ht : timeDiffOf h k t = t - e.prevTimeSent := by simp [timeDiffOf, hf]
      simp [ht, hf]
  · intro hfwd
    rw [hfst] at hfwd
    rw [sendDataToPredix, if_pos hfwd]
  · intro hfwd
    rw [hfst] at hfwd
    rw [sendDataToPredix, if_neg (by simp [hfwd])]

/-- Witness for the amended C1: a first send forwards and creates the
entry; a key already at the maximum count does not forward and leaves the
history unchanged. -/
theorem sendDataToPredix_gate_amended_witness :
    (sendDataToPredix [] "speed" 0).1 = true ∧
    (sendDataToPredix [] "speed" 0).2 = histSet [] "speed" ⟨0, numSendsOf [] "speed" + 1⟩ ∧
    (sendDataToPredix [("speed", ⟨0, 100⟩)] "speed" 200).2 = [("speed", ⟨0, 100⟩)] :=
  ⟨(sendDataToPredix_gate_amended [] "speed" 0).1.mpr
      ⟨by norm_num [numSendsOf, histFind, MAX_NUM_SENDS_PER_KEY], Or.inl rfl⟩,
    (sendDataToPredix_gate_amended [] "speed" 0).2.1 rfl,
    (sendDataToPredix_gate_amended [("speed", ⟨0, 100⟩)] "speed" 200).2.2 rfl⟩

/-- Zeta-expanded form of `processAssetData`. -/
theorem processAssetData_eq {α : Type} (st : AssetState α) :
    processAssetData st =
      if st.isOperationInProgress then (st, none)
      else if (setItemsInProgress st.queue []).length = 0 then
        ({ st with isOperationInProgress := false,
                   itemsInProgress := setItemsInProgress st.queue [] }, none)
      else
        ({ st with isOperationInProgress := true,
                   itemsInProgress := setItemsInProgress st.queue [] },
          some (setItemsInProgress st.queue [], st.token)) := rfl

/-- Zeta-expanded form of `processTimeSeriesData`. -/
theorem processTimeSeriesData_eq {α : Type} (st : TSState α) :
    processTimeSeriesData st =
      if st.isOperationInProgress then (st, none)
      else if (setItemsInProgress st.queue []).length = 0 then
        ({ st with isOperationInProgress := false,
                   itemsInProgress := setItemsInProgress st.queue [] }, none)
      else
        ({ st with isOperationInProgress := true,
                   itemsInProgress := setItemsInProgress st.queue [],
                   wsExists := true },
          some (setItemsInProgress st.queue [], st.token)) := rfl

/-- `processAssetData` never changes the queue or the token. -/
theorem processAssetData_preserves {α : Type} (st : AssetState α) :
    (processAssetData st).1.queue = st.queue ∧ (processAssetData st).1.token = st.token := by
  rw [processAssetData_eq]
  split
  · exact ⟨rfl, rfl⟩
  · split <;> exact ⟨rfl, rfl⟩

/-- `processTimeSeriesData` never changes the queue or the token. -/
theorem processTimeSeriesData_preserves {α : Type} (st : TSState α) :
    (processTimeSeriesData st).1.queue = st.queue ∧
      (processTimeSeriesData st).1.token = st.token := by
  rw [processTimeSeriesData_eq]
  split
  · exact ⟨rfl, rfl⟩
  · split <;> exact ⟨rfl, rfl⟩

/-- **C2.** On a transmission failure, neither service removes any queue
item: the asset failure handler clears the in-progress flag and schedules
the retry after `WAIT_SECONDS_BETWEEN_FAILED_REQUESTS` (in ms), the
streaming handler discards the socket and schedules the retry after the
same delay, and each scheduled retry callback clears the in-progress
flag, installs the freshly acquired credential, and re-invokes the drain —
all without touching the queue. -/
theorem failure_handling_at_least_once :
    ∀ (α β : Type) (stA : AssetState α) (stT : TSState β) (freshA freshT : String),
      (handlePostResponseFailure stA).1.queue = stA.queue ∧
      (handlePostResponseFailure stA).1.isOperationInProgress = false ∧
      (handlePostResponseFailure stA).2 = WAIT_SECONDS_BETWEEN_FAILED_REQUESTS * 1000 ∧
      (assetRetryCallbackPre stA freshA).queue = stA.queue ∧
      (assetRetryCallbackPre stA freshA).isOperationInProgress = false ∧
      (assetRetryCallbackPre stA freshA).token = freshA ∧
      (assetRetryCallback stA freshA).1.queue = stA.queue ∧
      (assetRetryCallback stA freshA).1.token = freshA ∧
      (wsOnError stT).1.queue = stT.queue ∧
      (wsOnError stT).1.wsExists = false ∧
      (wsOnError stT).2 = WAIT_SECONDS_BETWEEN_FAILED_REQUESTS * 1000 ∧
      (tsRetryCallbackPre stT freshT).queue = stT.queue ∧
      (tsRetryCallbackPre stT freshT).isOperationInProgress = false ∧
      (tsRetryCallbackPre stT freshT).token = freshT ∧
      (tsRetryCallback stT freshT).1.queue = stT.queue ∧
      (tsRetryCallback stT freshT).1.token = freshT := by
  intro α β stA stT freshA freshT
  have hA := processAssetData_preserves (assetRetryCallbackPre stA freshA)
  have hT := processTimeSeriesData_preserves (tsRetryCallbackPre stT freshT)
  exact ⟨rfl, rfl, rfl, rfl, rfl, rfl, hA.1, hA.2, rfl, rfl, rfl, rfl, rfl, rfl, hT.1, hT.2⟩

/-- `removeProcessedItemsFromQueue` equals a single filter dropping every
node whose key matches some in-progress item's key. -/
theorem removeProcessed_eq_filter {α : Type} (items : List (QItem α)) :
    ∀ q : List (QItem α),
      removeProcessedItemsFromQueue q items =
        q.filter (fun n => !(items.any (fun i => n.key == i.key))) := by
  induction items with
  | nil => intro q; simp [removeProcessedItemsFromQueue]
  | cons i rest ih =>
      intro q
      have hstep : removeProcessedItemsFromQueue q (i :: rest) =
          removeProcessedItemsFromQueue (q.filter (fun n => !(n.key == i.key))) rest := rfl
      rw [hstep, ih, List.filter_filter]
      apply List.filter_congr
      intro n _
      simp only [List.any_cons, Bool.not_or]
      rw [Bool.and_comm]

/-- **C3.** For a queue and an in-progress set whose item keys are
pairwise distinct and each the key of some queue item, a successful
acknowledgement (`Helper.removeProcessedItemsFromQueue`) leaves exactly
the queue nodes whose key matches no in-progress item — removal is by key
identity, each matched node is removed once (the result is a sublist, so
multiplicities never grow), unmatched nodes all survive, and the relative
order of survivors is preserved. -/
theorem removeProcessed_removes_exactly {α : Type} (q items : List (QItem α))
    (_hdistinct : items.Pairwise (fun a b => a.key ≠ b.key))
    (_hpresent : ∀ i ∈ items, ∃ n ∈ q, n.key = i.key) :
    removeProcessedItemsFromQueue q items =
      q.filter (fun n => !(items.any (fun i => n.key == i.key))) ∧
    (removeProcessedItemsFromQueue q items).Sublist q := by
  refine ⟨removeProcessed_eq_filter items q, ?_⟩
  rw [removeProcessed_eq_filter items q]
  exact List.filter_sublist q

/-- Witness for C3: three queued nodes, one in-progress item; exactly the
matching node is removed and order is preserved. -/
theorem removeProcessed_removes_exactly_witness :
    (List.Pairwise (fun a b => a.key ≠ b.key) [(⟨"b", 1⟩ : QItem ℕ)]) ∧
    (∀ i ∈ [(⟨"b", 1⟩ : QItem ℕ)],
      ∃ n ∈ [(⟨"a", 0⟩ : QItem ℕ), ⟨"b", 1⟩, ⟨"c", 2⟩], n.key = i.key) ∧
    removeProcessedItemsFromQueue [(⟨"a", 0⟩ : QItem ℕ), ⟨"b", 1⟩, ⟨"c", 2⟩] [⟨"b", 1⟩] =
      [⟨"a", 0⟩, ⟨"c", 2⟩] ∧
    (removeProcessedItemsFromQueue [(⟨"a", 0⟩ : QItem ℕ), ⟨"b", 1⟩, ⟨"c", 2⟩]
      [⟨"b", 1⟩]).Sublist [⟨"a", 0⟩, ⟨"b", 1⟩, ⟨"c", 2⟩] := by
  have h := removeProcessed_removes_exactly
    [(⟨"a", 0⟩ : QItem ℕ), ⟨"b", 1⟩, ⟨"c", 2⟩] [⟨"b", 1⟩]
    (by simp) (by simp)
  exact ⟨by simp, by simp, by rw [h.1]; rfl, h.2⟩

/-- `List.find?` after `histSet` at the written key. -/
theorem find?_histSet_self (t : History) (k : String) (e : HistEntry) :
    List.find? (fun p => decide (p.1 = k)) (histSet t k e) = some (k, e) := by
  induction t with
  | nil => rw [histSet, List.find?_cons_of_pos _ (by simp)]
  | cons p t ih =>
      rcases p with ⟨k'', e''⟩
      rw [histSet]
      by_cases hk2 : k'' = k
      · rw [if_pos hk2, List.find?_cons_of_pos _ (by simp)]
      · rw [if_neg hk2, List.find?_cons_of_neg _ (by simp [hk2])]
        exact ih

/-- `List.find?` after `histSet` at any other key. -/
theorem find?_histSet_ne (t : History) (k k' : String) (e : HistEntry) (hk : k' ≠ k) :
    List.find? (fun p => decide (p.1 = k')) (histSet t k e) =
      List.find? (fun p => decide (p.1 = k')) t := by
  induction t with
  | nil =>
      rw [histSet, List.find?_cons_of_neg _ (by simp [Ne.symm hk])]
  | cons p t ih =>
      rcases p with ⟨k'', e''⟩
      rw [histSet]
      by_cases hk2 : k'' = k
      · subst hk2
        rw [if_pos rfl,
          List.find?_cons_of_neg _ (by simp [Ne.symm hk]),
          List.find?_cons_of_neg _ (by simp [Ne.symm hk])]
      · rw [if_neg hk2]
        by_cases hk3 : k'' = k'
        · rw [List.find?_cons_of_pos _ (by simp [hk3]),
            List.find?_cons_of_pos _ (by simp [hk3])]
        · rw [List.find?_cons_of_neg _ (by simp [hk3]),
            List.find?_cons_of_neg _ (by simp [hk3])]
          exact ih

/-- `histFind` after `histSet` at the written key. -/
theorem histFind_histSet_self (h : History) (k : String) (e : HistEntry) :
    histFind (histSet h k e) k = some e := by
  simp only [histFind, find?_histSet_self]
  rfl

/-- `histFind` after `histSet` at any other key. -/
theorem histFind_histSet_ne (h : History) (k k' : String) (e : HistEntry)
    (hk : k' ≠ k) : histFind (histSet h k e) k' = histFind h k' := by
  simp only [histFind, find?_histSet_ne h k k' e hk]

/-- One sampling call changes the `numSends` count of key `k` exactly when
it forwards an event whose key is `k`, and then by exactly one. -/
theorem numSendsOf_sendDataToPredix (h : History) (k' k : String) (t : ℚ) :
    numSendsOf (sendDataToPredix h k' t).2 k =
      numSendsOf h k + (if (sendDataToPredix h k' t).1 ∧ k' = k then 1 else 0) := by
  rw [sendDataToPredix]
  rcases hss : shouldSend h k' t with _ | _
  · rw [if_neg (by simp [hss])]
    simp
  · rw [if_pos (by simp [hss])]
    by_cases hk : k' = k
    · subst hk
      simp [numSendsOf, histFind_histSet_self]
    · simp [hk, numSendsOf, histFind_histSet_ne h k' k _ (Ne.symm hk)]

/-- A forwarded event requires the sends-so-far count to be strictly below
the maximum. -/
theorem sendDataToPredix_requires_below_max (h : History) (k : String) (t : ℚ)
    (hfwd : (sendDataToPredix h k t).1 = true) :
    numSendsOf h k < MAX_NUM_SENDS_PER_KEY := by
  rw [sendDataToPredix] at hfwd
  rcases hss : shouldSend h k t with _ | _
  · rw [if_neg (by simp [hss])] at hfwd; cases hfwd
  · have := hss
    simp only [shouldSend, Bool.and_eq_true, decide_eq_true_eq] at this
    exact this.1

/-- Counting forwards along a run adds up on the final history's counter. -/
theorem numSendsOf_runHistory (evs : List (String × ℚ)) :
    ∀ (h : History) (k : String),
      numSendsOf (runHistory h evs) k = numSendsOf h k + countSends h evs k := by
  induction evs with
  | nil => intro h k; simp [runHistory, countSends]
  | cons ev rest ih =>
      intro h k
      rcases ev with ⟨k', t⟩
      rw [runHistory, countSends, ih, numSendsOf_sendDataToPredix h k' k t]
      omega

/-- The per-key counter never exceeds the maximum along any run. -/
theorem numSendsOf_runHistory_le (evs : List (String × ℚ)) :
    ∀ (h : History) (k : String), numSendsOf h k ≤ MAX_NUM_SENDS_PER_KEY →
      numSendsOf (runHistory h evs) k ≤ MAX_NUM_SENDS_PER_KEY := by
  induction evs with
  | nil => intro h k hle; simpa [runHistory] using hle
  | cons ev rest ih =>
      intro h k hle
      rcases ev with ⟨k', t⟩
      rw [runHistory]
      apply ih
      rw [numSendsOf_sendDataToPredix h k' k t]
      by_cases hc : (sendDataToPredix h k' t).1 = true ∧ k' = k
      · rw [if_pos (by exact ⟨hc.1, hc.2⟩)]
        have := sendDataToPredix_requires_below_max h k' t hc.1
        rw [hc.2] at this
        omega
      · rw [if_neg (by simpa using hc)]
        omega

/-- **C8.** For every key and every sequence of sampling events processed
from the initial (empty) history, the number of forwarded events for that
key equals the key's final `numSends` counter and never exceeds
`MAX_NUM_SENDS_PER_KEY`. -/
theorem sampling_bound (evs : List (String × ℚ)) (k : String) :
    countSends [] evs k ≤ MAX_NUM_SENDS_PER_KEY ∧
    numSendsOf (runHistory [] evs) k = countSends [] evs k := by
  have heq := numSendsOf_runHistory evs [] k
  have h0 : numSendsOf [] k = 0 := rfl
  rw [h0] at heq
  constructor
  · have := numSendsOf_runHistory_le evs [] k
      (by rw [h0]; exact Nat.zero_le _)
    omega
  · omega

/-- The Fireman stage preserves the combustion invariant. -/
theorem fireman_preserves_inv (s : SimState) (hs : FuelInv s) :
    FuelInv (firemanTransferFunction s) := by
  rcases hs with ⟨h1, h2, h3⟩
  rw [firemanTransferFunction]
  split
  · exact ⟨h1, h2, h3⟩
  · refine ⟨h1, ?_, h3⟩
    show s.fuelMassBurning ≤ s.fuelMassInFireChamber + FUEL_ADD_AMT
    have : (0 : ℚ) ≤ FUEL_ADD_AMT := by norm_num [FUEL_ADD_AMT]
    linarith

/-- The Fire Chamber stage preserves the combustion invariant. -/
theorem fireChamber_preserves_inv (s : SimState) (hs : FuelInv s) :
    FuelInv (fireChamberTransferFunction s) := by
  rcases hs with ⟨h1, h2, h3⟩
  have hb1 : 0 ≤ preDecrementBurning s ∧ preDecrementBurning s ≤ s.fuelMassInFireChamber := by
    rw [preDecrementBurning]
    split
    · constructor
      · exact le_min (by linarith) (by norm_num [FUEL_ADD_AMT]; linarith)
      · exact min_le_left _ _
    · exact ⟨h1, h2⟩
  refine ⟨?_, ?_, ?_⟩
  · show (0 : ℚ) ≤ max 0 (preDecrementBurning s - FUEL_BURN_AMT)
    exact le_max_left _ _
  · show max 0 (preDecrementBurning s - FUEL_BURN_AMT) ≤
      max 0 (s.fuelMassInFireChamber - FUEL_BURN_AMT)
    exact max_le_max le_rfl (by linarith [hb1.2])
  · show (0 : ℚ) ≤ PRESSURE_MULTIPLIER * preDecrementBurning s
    have : (0 : ℚ) ≤ PRESSURE_MULTIPLIER := by norm_num [PRESSURE_MULTIPLIER]
    exact mul_nonneg this hb1.1

/-- The Movement stage preserves the combustion invariant (it never
touches the fuel masses or the pressure). -/
theorem movement_preserves_inv (s : SimState) (hs : FuelInv s) :
    FuelInv (movementTransferFunction s) := hs

/-- **C9.** Every stage of the three-stage pipeline preserves the
invariant `0 ≤ fuelMassBurning ≤ fuelMassInFireChamber ∧ 0 ≤ pressure`,
and every state reachable from the initial state (burning mass 0,
fire-chamber mass 0, pressure 0) by iterating the pipeline satisfies it;
in particular the pressure — set by the combustion stage to
`PRESSURE_MULTIPLIER` times a nonnegative burning mass — is always
nonnegative. -/
theorem pipeline_invariant :
    (∀ s, FuelInv s → FuelInv (firemanTransferFunction s)) ∧
    (∀ s, FuelInv s → FuelInv (fireChamberTransferFunction s)) ∧
    (∀ s, FuelInv s → FuelInv (movementTransferFunction s)) ∧
    (∀ n, FuelInv (simStateAt n)) := by
  refine ⟨fireman_preserves_inv, fireChamber_preserves_inv, movement_preserves_inv, ?_⟩
  intro n
  induction n with
  | zero =>
      refine ⟨le_refl 0, le_refl 0, le_refl 0⟩
  | succ n ih =>
      exact movement_preserves_inv _ (fireChamber_preserves_inv _
        (fireman_preserves_inv _ ih))

/-- Witness for C9: the three stage-preservation components of
`pipeline_invariant` applied at the initial state. -/
theorem pipeline_invariant_witness :
    FuelInv (firemanTransferFunction initialState) ∧
    FuelInv (fireChamberTransferFunction initialState) ∧
    FuelInv (movementTransferFunction initialState) :=
  ⟨pipeline_invariant.1 initialState ⟨le_refl 0, le_refl 0, le_refl 0⟩,
    pipeline_invariant.2.1 initialState ⟨le_refl 0, le_refl 0, le_refl 0⟩,
    pipeline_invariant.2.2.1 initialState ⟨le_refl 0, le_refl 0, le_refl 0⟩⟩

/-- Only the Fireman stage ever changes the tender mass. -/
theorem advance_fuelMassInTender (s : SimState) :
    (advance s).fuelMassInTender = (firemanTransferFunction s).fuelMassInTender := rfl

/-- **C10 (counterexample).** The claim's parenthetical "the Fuel Transfer
gate only blocks when the tender is already negative, so a tick starting
with tender mass in [0, FUEL_ADD_AMT) drives it below zero" is false: the
gate also blocks when the fire-chamber mass exceeds its maximum. At the
state with tender mass 1/2 and fire-chamber mass 11, the stage is a no-op
and a full tick leaves the tender mass at 1/2, not below zero. -/
theorem tender_gate_counterexample :
    0 ≤ (⟨0, 0, 1/2, 11, 0, 0, 0, 0⟩ : SimState).fuelMassInTender ∧
    (⟨0, 0, 1/2, 11, 0, 0, 0, 0⟩ : SimState).fuelMassInTender < FUEL_ADD_AMT ∧
    firemanTransferFunction ⟨0, 0, 1/2, 11, 0, 0, 0, 0⟩ = ⟨0, 0, 1/2, 11, 0, 0, 0, 0⟩ ∧
    ¬ (advance (⟨0, 0, 1/2, 11, 0, 0, 0, 0⟩ : SimState)).fuelMassInTender < 0 := by
  have hgate : firemanTransferFunction (⟨0, 0, 1/2, 11, 0, 0, 0, 0⟩ : SimState) =
      ⟨0, 0, 1/2, 11, 0, 0, 0, 0⟩ := by
    rw [firemanTransferFunction,
      if_pos (Or.inr (by norm_num [MAX_FUEL_MASS_IN_FIRE_CHAMBER]))]
  refine ⟨by norm_num, by norm_num [FUEL_ADD_AMT], hgate, ?_⟩
  rw [advance_fuelMassInTender, hgate]
  norm_num

/-- **C10 (amended).** For every state reachable from the initial state,
`fuelMassInTender ≥ -FUEL_ADD_AMT`; the tender mass can go negative but
never by more than one fuel quantum, because the transfer only fires from
a nonnegative tender; once the tender is negative a tick never changes it
again; and a tick starting with tender mass in `[0, FUEL_ADD_AMT)` drives
it below zero *provided* the fire-chamber mass does not exceed its
maximum (the gate blocks when the tender is already negative or the fire
chamber is over-full). -/
theorem tender_lower_bound_amended :
    (∀ n, -FUEL_ADD_AMT ≤ (simStateAt n).fuelMassInTender) ∧
    (∀ s : SimState, s.fuelMassInTender < 0 →
      (advance s).fuelMassInTender = s.fuelMassInTender) ∧
    (∀ s : SimState, 0 ≤ s.fuelMassInTender → s.fuelMassInTender < FUEL_ADD_AMT →
      s.fuelMassInFireChamber ≤ MAX_FUEL_MASS_IN_FIRE_CHAMBER →
      (advance s).fuelMassInTender < 0) := by
  have hstep : ∀ s : SimState, -FUEL_ADD_AMT ≤ s.fuelMassInTender →
      -FUEL_ADD_AMT ≤ (advance s).fuelMassInTender := by
    intro s hs
    rw [advance_fuelMassInTender, firemanTransferFunction]
    split
    · exact hs
    · show -FUEL_ADD_AMT ≤ s.fuelMassInTender - FUEL_ADD_AMT
      rename_i hgate
      push_neg at hgate
      linarith [hgate.1]
  refine ⟨?_, ?_, ?_⟩
  · intro n
    induction n with
    | zero =>
        show -FUEL_ADD_AMT ≤ INITIAL_FUEL_MASS_IN_TENDER
        norm_num [FUEL_ADD_AMT, INITIAL_FUEL_MASS_IN_TENDER]
    | succ n ih => exact hstep _ ih
  · intro s hneg
    rw [advance_fuelMassInTender, firemanTransferFunction, if_pos (Or.inl hneg)]
  · intro s h0 h1 h2
    rw [advance_fuelMassInTender, firemanTransferFunction,
      if_neg (by push_neg; exact ⟨h0, h2⟩)]
    show s.fuelMassInTender - FUEL_ADD_AMT < 0
    linarith

/-- Witness for the amended C10: the initial state satisfies the bound; a
tick from a negative tender (-1/2) leaves it unchanged; a tick from
tender 1/2 with an in-range fire chamber drives the tender below zero. -/
theorem tender_lower_bound_amended_witness :
    -FUEL_ADD_AMT ≤ (simStateAt 0).fuelMassInTender ∧
    (advance (⟨0, 0, -1/2, 0, 0, 0, 0, 0⟩ : SimState)).fuelMassInTender =
      (⟨0, 0, -1/2, 0, 0, 0, 0, 0⟩ : SimState).fuelMassInTender ∧
    (advance (⟨0, 0, 1/2, 0, 0, 0, 0, 0⟩ : SimState)).fuelMassInTender < 0 :=
  ⟨tender_lower_bound_amended.1 0,
    tender_lower_bound_amended.2.1 _ (by norm_num),
    tender_lower_bound_amended.2.2 _ (by norm_num) (by norm_num [FUEL_ADD_AMT])
      (by norm_num [MAX_FUEL_MASS_IN_FIRE_CHAMBER])⟩

/-- The sampling gate always forwards the first event of a key. -/
theorem sendDataToPredix_firstSend (k : String) (t : ℚ) :
    (sendDataToPredix [] k t).1 = true := by
  norm_num [sendDataToPredix, shouldSend, numSendsOf, timeDiffOf, histFind,
    MAX_NUM_SENDS_PER_KEY]

/-- Value of the Fireman stage on the initial state. -/
theorem fireman_initialState :
    firemanTransferFunction initialState = ⟨0, 0, 12699, 1, 500000, 0, 0, 0⟩ := by
  rw [firemanTransferFunction, if_neg (by
    norm_num [initialState, INITIAL_FUEL_MASS_IN_TENDER, MAX_FUEL_MASS_IN_FIRE_CHAMBER])]
  norm_num [initialState, INITIAL_FUEL_MASS_IN_TENDER, LOCOMOTIVE_OWN_MASS, FUEL_ADD_AMT,
    SimState.mk.injEq]

/-- Value of the Fire Chamber stage after the first Fireman step. -/
theorem fireChamber_initialStep :
    fireChamberTransferFunction ⟨0, 0, 12699, 1, 500000, 0, 0, 0⟩ =
      ⟨0, 9/10, 12699, 9/10, 500000, 2, 0, 0⟩ := by
  simp only [fireChamberTransferFunction]
  norm_num [SimState.mk.injEq, FUEL_ADD_AMT, FUEL_BURN_AMT, PRESSURE_MULTIPLIER,
    min_def, max_def]

/-- Value of the Movement stage after the first two stages: the dead-zone
rule zeroes the acceleration, so only the clock advances. -/
theorem movement_initialStep :
    movementTransferFunction ⟨0, 9/10, 12699, 9/10, 500000, 2, 0, 0⟩ =
      ⟨0, 9/10, 12699, 9/10, 500000, 2, 0, 1/10⟩ := by
  have habs : |(X1 * (2:ℚ) - X2 * 0) / ((500000:ℚ) + 12699 + 9/10)| < X3 := by
    rw [abs_of_nonneg (by norm_num [X1, X2])]
    norm_num [X1, X2, X3]
  simp only [movementTransferFunction]
  rw [if_pos ⟨trivial, habs⟩]
  norm_num [SimState.mk.injEq, DT]

/-- The state after the first simulator iteration. -/
theorem advance_initialState :
    advance initialState = ⟨0, 9/10, 12699, 9/10, 500000, 2, 0, 1/10⟩ := by
  rw [advance, fireman_initialState, fireChamber_initialStep, movement_initialStep]

/-- On the first iteration, whatever string the initial token acquisition
returned, exactly one outbound attempt is made: a time-series transmission
of the advanced state, bearing that string as its credential; no asset
alert fires. -/
theorem firstIteration_attempts (tok : String) :
    (firstIteration tok).tsAttempts = [([⟨"id-0", advance initialState⟩], tok)] ∧
    (firstIteration tok).assetAttempts = [] := by
  have hpress : ¬((advance initialState).pressure > MAX_ALLOWED_PRESSURE) := by
    rw [advance_initialState]
    norm_num [MAX_ALLOWED_PRESSURE]
  have hspeed : ¬((advance initialState).speed > MAX_ALLOWED_SPEED) := by
    rw [advance_initialState]
    norm_num [MAX_ALLOWED_SPEED]
  have htend : ¬((advance initialState).fuelMassInTender < MIN_ALLOWED_FUEL_MASS_IN_TENDER) := by
    rw [advance_initialState]
    norm_num [MIN_ALLOWED_FUEL_MASS_IN_TENDER]
  simp only [firstIteration, sendDataToPredix_firstSend, if_true, hpress, hspeed, htend,
    if_false, ite_false, ite_true]
  constructor <;> rfl

/-- **C4 (counterexample).** With the token acquisition failing (so that
`Helper.getPredixToken` returns the sentinel `"no_token"`), the simulator
does *not* abort: its first iteration still issues a time-series sink
transmission — carrying the sentinel as its bearer credential — so sink
traffic begins, contradicting the claim that no data is sent to either
sink. -/
theorem startup_sentinel_counterexample :
    getPredixToken (Except.error "connection refused") = "no_token" ∧
    (firstIteration "no_token").tsAttempts ≠ [] := by
  refine ⟨rfl, ?_⟩
  rw [(firstIteration_attempts "no_token").1]
  simp

/-- **C4 (amended).** `Helper.getPredixToken` surfaces a failure as the
ordinary value `"no_token"` and never throws; but the simulator's
`runSimulation` does not branch on the sentinel: it constructs both
services with whatever string came back and proceeds, so on the very
first iteration one time-series transmission attempt is issued bearing
that string (the sentinel included) as its credential, and no asset alert
fires. (Only the separate verification utility aborts on the sentinel.) -/
theorem startup_sentinel_amended :
    (∀ e : String, getPredixToken (Except.error e) = "no_token") ∧
    (∀ tk : String, getPredixToken (Except.ok tk) = tk) ∧
    (∀ tok : String,
      (firstIteration tok).tsAttempts = [([⟨"id-0", advance initialState⟩], tok)] ∧
      (firstIteration tok).assetAttempts = []) :=
  ⟨fun _ => rfl, fun _ => rfl, fun tok => firstIteration_attempts tok⟩

end Locomotive
